/-
  Verification of the `humility stackmargin` and `humility readvar` commands
  (mkj/humility, src/cmd/stackmargin/src/lib.rs and src/cmd/readvar/src/lib.rs).

  The Rust code is shallowly embedded: u32 values are naturals with explicit
  `% 2^32` where overflow can occur, byte buffers are `List Nat`, fallible
  operations return `Except String _`, and a Rust panic (slice index out of
  range) is modelled by `Option.none` in the scan and by an error in the
  surrounding pipeline.  External collaborators (the probe core and the
  debug-info database) are modelled as function-valued environment fields.
-/
import Mathlib

namespace Humility

/-- One memory region from `hubris.regions(core)`: base address, byte size,
and the list of owning tasks (task ids model `HubrisTask` values). -/
structure Region where
  base : Nat
  size : Nat
  tasks : List Nat
  deriving DecidableEq, Repr

/-- The containment test of the `find` closure in `stackmargin`
(src/cmd/stackmargin/src/lib.rs line 80):
`addr > region.base && addr <= region.base + region.size`, with the u32
addition wrapping modulo 2^32. -/
def regionContains (r : Region) (addr : Nat) : Bool :=
  decide (r.base < addr) && decide (addr ≤ (r.base + r.size) % 4294967296)

/-- The `find` closure (src/cmd/stackmargin/src/lib.rs lines 78-86): scan the
region list in order, return the first region containing `addr`, otherwise
fail with a not-found error. -/
def find (regions : List Region) (addr : Nat) : Except String Region :=
  match regions with
  | [] => Except.error "could not find region for address"
  | r :: rest => if regionContains r addr then Except.ok r else find rest addr

/-- `u32::from_le_bytes` on four bytes. -/
def fromLeBytes (b0 b1 b2 b3 : Nat) : Nat :=
  b0 + 256 * b1 + 65536 * b2 + 16777216 * b3

/-- The uninitialized fill pattern `0xbaddcafe`
(src/cmd/stackmargin/src/lib.rs line 128). -/
def sentinel : Nat := 0xbaddcafe

/-- The little-endian byte image of one sentinel word. -/
def sentinelBytes : List Nat := [0xfe, 0xca, 0xdd, 0xba]

/-- A stack image of `n` whole sentinel words. -/
def sentinelWords (n : Nat) : List Nat :=
  (List.replicate n sentinelBytes).flatten

/-- The scan loop of `stackmargin` (src/cmd/stackmargin/src/lib.rs lines
125-133), operating on the suffix `stack.drop o` of the buffer.  Each
iteration reads `stack[o..o+4]` — modelled by the four-cons pattern; fewer
than four remaining bytes means the Rust slice indexing panics, modelled as
`none`.  It breaks with `size - o` at the first word that differs from the
sentinel, or when `o + 4 >= size`. -/
def scanRem (size o : Nat) : List Nat → Option Nat
  | b0 :: b1 :: b2 :: b3 :: rest =>
    let c := fromLeBytes b0 b1 b2 b3
    if c ≠ sentinel ∨ o + 4 ≥ size then some (size - o)
    else scanRem size (o + 4) rest
  | _ => none

/-- The whole scan: `o` starts at 0 and the buffer has (in the Rust code,
always) length `size`. -/
def stackScan (size : Nat) (stack : List Nat) : Option Nat :=
  scanRem size 0 stack

/-- `u32::from_le_bytes(taskblock[o..o+4])` — the `taskblock32` closure
(src/cmd/stackmargin/src/lib.rs lines 75-76); `none` models the panic when
fewer than four bytes remain. -/
def word32At (l : List Nat) (o : Nat) : Option Nat :=
  match l.drop o with
  | b0 :: b1 :: b2 :: b3 :: _ => some (fromLeBytes b0 b1 b2 b3)
  | _ => none

/-- A device operation issued to the probe core. -/
inductive DeviceOp where
  | halt
  | run
  | read8 (addr len : Nat)
  | readWord (addr : Nat)
  deriving DecidableEq, Repr

/-- One line of `stackmargin` output (src/cmd/stackmargin/src/lib.rs
lines 135-137). -/
structure Row where
  id : Nat
  name : String
  stackbase : Nat
  size : Nat
  depth : Nat
  margin : Nat
  deriving DecidableEq, Repr

/-- Output emitted per task: a result row, or the "unknown" placeholder
printed for the supervisor on a network session. -/
inductive Output where
  | row (r : Row)
  | unknown (id : Nat) (name : String)
  deriving DecidableEq, Repr

/-- The environment of one `stackmargin` invocation: the attached core
(`isNet`, `readWord`, `readBytes`), the archive metadata (`regions`,
task-table base and count, struct sizes and member offsets, module lookup),
and the optional single-task dump restriction (`hubris.task_dump()`).
`readBytes a n` models `core.read_8` of `n` bytes at address `a` into a
pre-sized buffer; `readWord` models `core.read_word_32`. -/
structure Env where
  isNet : Bool
  taskDump : Option Nat
  taskCount : Nat
  tableBase : Nat
  taskSize : Nat
  descriptorOff : Nat
  initialStackOff : Nat
  regions : List Region
  readWord : Nat → Except String Nat
  readBytes : Nat → Nat → Except String (List Nat)
  moduleName : Nat → String
  moduleTask : Nat → Nat

/-- Construction of `taskblock` (src/cmd/stackmargin/src/lib.rs lines
53-67): a zero-filled buffer of `task.size * size` bytes, then — depending
on the session — a read of the selected task's slice, of everything past
the supervisor's slice (network session), or of the whole table.  Returns
the device-read trace alongside the block. -/
def buildTaskblock (env : Env) : List DeviceOp × Except String (List Nat) :=
  let total := env.taskSize * env.taskCount
  match env.taskDump with
  | some i =>
    let offs := i * env.taskSize
    let addr := (env.tableBase + offs) % 4294967296
    match env.readBytes addr env.taskSize with
    | Except.error e => ([DeviceOp.read8 addr env.taskSize], Except.error e)
    | Except.ok bs =>
      ([DeviceOp.read8 addr env.taskSize],
       Except.ok (List.replicate offs 0 ++ bs ++
         List.replicate (total - (offs + env.taskSize)) 0))
  | none =>
    if env.isNet then
      let addr := (env.tableBase + env.taskSize) % 4294967296
      match env.readBytes addr (total - env.taskSize) with
      | Except.error e =>
        ([DeviceOp.read8 addr (total - env.taskSize)], Except.error e)
      | Except.ok bs =>
        ([DeviceOp.read8 addr (total - env.taskSize)],
         Except.ok (List.replicate env.taskSize 0 ++ bs))
    else
      match env.readBytes env.tableBase total with
      | Except.error e => ([DeviceOp.read8 env.tableBase total], Except.error e)
      | Except.ok bs => ([DeviceOp.read8 env.tableBase total], Except.ok bs)

/-- The loop body for task `i` (src/cmd/stackmargin/src/lib.rs lines
95-137), after the dump-restriction `continue`: the network-supervisor
placeholder, descriptor extraction from the task block, the fresh
`initial_stack` read, region resolution, ownership validation, the stack
read, and the scan.  Returns the device-operation trace of the body and
either an error (a `bail!` or a panic) or the outputs printed for this
task. -/
def taskStep (env : Env) (tb : List Nat) (i : Nat) :
    List DeviceOp × Except String (List Output) :=
  if env.isNet = true ∧ i = 0 then
    ([], Except.ok [Output.unknown i (env.moduleName i)])
  else
    match word32At tb (i * env.taskSize + env.descriptorOff) with
    | none => ([], Except.error "panic: index out of range")
    | some daddr =>
      let iaddr := (daddr + env.initialStackOff) % 4294967296
      match env.readWord iaddr with
      | Except.error e => ([DeviceOp.readWord iaddr], Except.error e)
      | Except.ok initial =>
        match find env.regions initial with
        | Except.error e => ([DeviceOp.readWord iaddr], Except.error e)
        | Except.ok region =>
          if region.tasks.length ≠ 1 ∨
              region.tasks.get? 0 ≠ some (env.moduleTask i) then
            ([DeviceOp.readWord iaddr], Except.error "mismatched task")
          else
            let sz := initial - region.base
            match env.readBytes region.base sz with
            | Except.error e =>
              ([DeviceOp.readWord iaddr, DeviceOp.read8 region.base sz],
               Except.error e)
            | Except.ok stack =>
              match stackScan sz stack with
              | none =>
                ([DeviceOp.readWord iaddr, DeviceOp.read8 region.base sz],
                 Except.error "panic: index out of range")
              | some depth =>
                ([DeviceOp.readWord iaddr, DeviceOp.read8 region.base sz],
                 Except.ok [Output.row
                   ⟨i, env.moduleName i, region.base, sz, depth, sz - depth⟩])

/-- Whether the `for` loop skips task `i` because a single-task dump is
selected (src/cmd/stackmargin/src/lib.rs lines 89-93). -/
def skipTask (env : Env) (i : Nat) : Bool :=
  match env.taskDump with
  | some ndx => decide (ndx ≠ i)
  | none => false

/-- The `for i in 0..size` loop, by remaining iteration count: outputs are
accumulated in print order; an error from a body aborts the remaining
iterations while the already-printed outputs stand. -/
def loopCount (env : Env) (tb : List Nat) :
    Nat → Nat → List DeviceOp × List Output × Option String
  | 0, _ => ([], [], none)
  | n + 1, i =>
    if skipTask env i then loopCount env tb n (i + 1)
    else
      match taskStep env tb i with
      | (tr, Except.error e) => (tr, [], some e)
      | (tr, Except.ok outs) =>
        let r := loopCount env tb n (i + 1)
        (tr ++ r.1, outs ++ r.2.1, r.2.2)

/-- The whole `stackmargin` command body after the archive lookups:
task-block construction followed by the per-task loop.  Result: the trace
of device operations, the outputs in print order, and `some e` when the
command aborted with error `e`. -/
def stackmargin (env : Env) : List DeviceOp × List Output × Option String :=
  match buildTaskblock env with
  | (tr, Except.error e) => (tr, [], some e)
  | (tr, Except.ok tb) =>
    let r := loopCount env tb env.taskCount 0
    (tr ++ r.1, r.2.1, r.2.2)

/-! ### The `readvar` command (src/cmd/readvar/src/lib.rs) -/

/-- One `HubrisVariable` as used by `readvar`: address, byte size, and the
type identifier passed to the renderer. -/
structure HVariable where
  addr : Nat
  size : Nat
  goff : Nat
  deriving DecidableEq, Repr

/-- The probe core as `readvar` uses it: the outcome of `halt()`, of
`run()`, and of `read_8(addr, len)`. -/
structure RvCore where
  haltRes : Except String Unit
  runRes : Except String Unit
  readRes : Nat → Nat → Except String (List Nat)

/-- The debug-info database as `readvar` uses it: `lookup_variables`,
`list_variables` (print-only; may fail if the archive is unusable), and
`printfmt buf goff hex` rendering a buffer by type. -/
structure RvDb where
  lookupVariables : String → Except String (List HVariable)
  listVariables : Except String Unit
  printfmt : List Nat → Nat → Bool → Except String String

/-- The parsed `readvar` arguments. -/
structure RvArgs where
  decimal : Bool
  list : Bool
  varName : Option String
  deriving DecidableEq, Repr

/-- `readvar_dump` (src/cmd/readvar/src/lib.rs lines 59-85): halt, read the
variable's bytes, run, render.  Each `?` propagates the error immediately;
the trace records the device operations attempted up to that point, so a
`read_8` failure leaves the trace without a `run`. -/
def readvar_dump (core : RvCore) (db : RvDb) (v : HVariable) (hex : Bool) :
    List DeviceOp × Except String String :=
  match core.haltRes with
  | Except.error e => ([DeviceOp.halt], Except.error e)
  | Except.ok _ =>
    match core.readRes v.addr v.size with
    | Except.error e => ([DeviceOp.halt, DeviceOp.read8 v.addr v.size], Except.error e)
    | Except.ok buf =>
      match core.runRes with
      | Except.error e =>
        ([DeviceOp.halt, DeviceOp.read8 v.addr v.size, DeviceOp.run], Except.error e)
      | Except.ok _ =>
        match db.printfmt buf v.goff hex with
        | Except.error e =>
          ([DeviceOp.halt, DeviceOp.read8 v.addr v.size, DeviceOp.run], Except.error e)
        | Except.ok s =>
          ([DeviceOp.halt, DeviceOp.read8 v.addr v.size, DeviceOp.run], Except.ok s)

/-- Whether the device is halted after a trace of operations has been
performed against an initially running device: `halt` halts it, `run`
resumes it, reads leave it unchanged. -/
def haltedAfter (tr : List DeviceOp) : Bool :=
  tr.foldl
    (fun h op =>
      match op with
      | DeviceOp.halt => true
      | DeviceOp.run => false
      | _ => h) false

/-- The loop `for v in variables { readvar_dump(...)? }` of `readvar`
(src/cmd/readvar/src/lib.rs lines 104-106). -/
def readvarLoop (core : RvCore) (db : RvDb) (hex : Bool) :
    List HVariable → List DeviceOp × Except String (List String)
  | [] => ([], Except.ok [])
  | v :: vs =>
    match readvar_dump core db v hex with
    | (tr, Except.error e) => (tr, Except.error e)
    | (tr, Except.ok s) =>
      match readvarLoop core db hex vs with
      | (tr2, Except.error e) => (tr ++ tr2, Except.error e)
      | (tr2, Except.ok ss) => (tr ++ tr2, Except.ok (s :: ss))

/-- `readvar` (src/cmd/readvar/src/lib.rs lines 87-109): with `--list` the
database listing is printed and the device is never touched; otherwise the
named variable's matches are each dumped; with neither, a usage error. -/
def readvar (core : RvCore) (db : RvDb) (args : RvArgs) :
    List DeviceOp × Except String (List String) :=
  if args.list then
    match db.listVariables with
    | Except.error e => ([], Except.error e)
    | Except.ok _ => ([], Except.ok [])
  else
    match args.varName with
    | none => ([], Except.error "expected variable")
    | some name =>
      match db.lookupVariables name with
      | Except.error e => ([], Except.error e)
      | Except.ok vars => readvarLoop core db (!args.decimal) vars

/-! ### Concrete instances

Synthetic devices and archives used to evaluate the pipeline on concrete
inputs: the documented "jefe" example (region base `0x20001000`, size 1024,
768 sentinel bytes then 256 used bytes), a two-task archive whose second
task's stack region has a corrupt owner set, and a two-task network
session. -/

/-- The "jefe" stack image: 768 bytes of sentinel, then 256 used bytes. -/
def jefeStack : List Nat := sentinelWords 192 ++ List.replicate 256 0

/-- The region holding the jefe stack, owned by task 0. -/
def jefeRegion : Region := ⟨0x20001000, 1024, [0]⟩

/-- A one-task archive and device realizing the documented jefe example:
task 0's descriptor lives at `0x2000`, its `initial_stack` is
`0x20001000 + 1024`, and its stack image is `jefeStack`. -/
def envJefe : Env where
  isNet := false
  taskDump := none
  taskCount := 1
  tableBase := 0x1000
  taskSize := 8
  descriptorOff := 0
  initialStackOff := 0
  regions := [jefeRegion]
  readWord := fun a =>
    if a = 0x2000 then Except.ok (0x20001000 + 1024) else Except.error "read"
  readBytes := fun a n =>
    if a = 0x1000 ∧ n = 8 then Except.ok [0x00, 0x20, 0, 0, 0, 0, 0, 0]
    else if a = 0x20001000 ∧ n = 1024 then Except.ok jefeStack
    else Except.error "read"
  moduleName := fun _ => "jefe"
  moduleTask := fun _ => 0

/-- The task block of `envBad`: descriptors at `0x2000` and `0x2100`. -/
def tbBad : List Nat :=
  [0x00, 0x20, 0, 0, 0, 0, 0, 0, 0x00, 0x21, 0, 0, 0, 0, 0, 0]

/-- A two-task archive whose second task's stack resolves to a region with
owner set `[5, 6]` instead of `[1]`: task 0 is healthy (the jefe example),
task 1 trips the ownership validation. -/
def envBad : Env where
  isNet := false
  taskDump := none
  taskCount := 2
  tableBase := 0x1000
  taskSize := 8
  descriptorOff := 0
  initialStackOff := 0
  regions := [⟨0x20001000, 1024, [0]⟩, ⟨0x20001400, 1024, [5, 6]⟩]
  readWord := fun a =>
    if a = 0x2000 then Except.ok (0x20001000 + 1024)
    else if a = 0x2100 then Except.ok (0x20001400 + 1024)
    else Except.error "read"
  readBytes := fun a n =>
    if a = 0x1000 ∧ n = 16 then Except.ok tbBad
    else if a = 0x20001000 ∧ n = 1024 then Except.ok jefeStack
    else Except.error "read"
  moduleName := fun i => if i = 0 then "jefe" else "rcc"
  moduleTask := fun i => i

/-- The task block of `envNet`: a zeroed supervisor slice (never read over
the network) followed by task 1's slice. -/
def tbNet : List Nat :=
  List.replicate 8 0 ++ [0x00, 0x21, 0, 0, 0, 0, 0, 0]

/-- A two-task network session: the supervisor's memory is unreadable, task
1 is healthy with its stack in a region owned by `[1]`. -/
def envNet : Env where
  isNet := true
  taskDump := none
  taskCount := 2
  tableBase := 0x1000
  taskSize := 8
  descriptorOff := 0
  initialStackOff := 0
  regions := [⟨0x20001400, 1024, [1]⟩]
  readWord := fun a =>
    if a = 0x2100 then Except.ok (0x20001400 + 1024) else Except.error "read"
  readBytes := fun a n =>
    if a = 0x1008 ∧ n = 8 then Except.ok [0x00, 0x21, 0, 0, 0, 0, 0, 0]
    else if a = 0x20001400 ∧ n = 1024 then Except.ok jefeStack
    else Except.error "read"
  moduleName := fun i => if i = 0 then "jefe" else "rcc"
  moduleTask := fun i => i

/-- A probe whose `halt` and `run` succeed but whose `read_8` always
fails. -/
def coreBadRead : RvCore where
  haltRes := Except.ok ()
  runRes := Except.ok ()
  readRes := fun _ _ => Except.error "read failed"

/-- A database with one variable whose rendering succeeds. -/
def dbTrivial : RvDb where
  lookupVariables := fun _ => Except.ok [⟨0x20000018, 4, 1⟩]
  listVariables := Except.ok ()
  printfmt := fun _ _ _ => Except.ok "value"

/-! ### Scan lemmas -/

/-- The value of one sentinel word read little-endian is the sentinel. -/
lemma fromLeBytes_sentinel : fromLeBytes 0xfe 0xca 0xdd 0xba = sentinel := by
  decide

/-- Any depth the scan produces is at most `size - o`. -/
lemma scanRem_le (size o : Nat) (rest : List Nat) (d : Nat)
    (h : scanRem size o rest = some d) : d ≤ size - o := by
  match rest with
  | [] => simp [scanRem] at h
  | [a] => simp [scanRem] at h
  | [a, b] => simp [scanRem] at h
  | [a, b, c] => simp [scanRem] at h
  | b0 :: b1 :: b2 :: b3 :: r =>
    rw [scanRem] at h
    by_cases hc : fromLeBytes b0 b1 b2 b3 ≠ sentinel ∨ o + 4 ≥ size
    · simp only [if_pos hc, Option.some.injEq] at h
      omega
    · simp only [if_neg hc] at h
      have := scanRem_le size (o + 4) r d h
      omega

/-- When the buffer suffix is exactly as long as the remaining size, a
completed scan's depth is at least 4: the word at the break offset was
actually read, so at least four bytes lie past it. -/
lemma scanRem_ge_four (size o : Nat) (rest : List Nat) (d : Nat)
    (hlen : rest.length = size - o)
    (h : scanRem size o rest = some d) : 4 ≤ d := by
  match rest with
  | [] => simp [scanRem] at h
  | [a] => simp [scanRem] at h
  | [a, b] => simp [scanRem] at h
  | [a, b, c] => simp [scanRem] at h
  | b0 :: b1 :: b2 :: b3 :: r =>
    rw [scanRem] at h
    simp only [List.length_cons] at hlen
    by_cases hc : fromLeBytes b0 b1 b2 b3 ≠ sentinel ∨ o + 4 ≥ size
    · simp only [if_pos hc, Option.some.injEq] at h
      omega
    · simp only [if_neg hc] at h
      exact scanRem_ge_four size (o + 4) r d (by omega) h

/-- When the remaining size is a positive multiple of four and the buffer
suffix is exactly that long, the scan always completes. -/
lemma scanRem_completes (size o : Nat) (rest : List Nat)
    (hlen : rest.length = size - o) (ho : o + 4 ≤ size)
    (hmod : (size - o) % 4 = 0) :
    ∃ d, scanRem size o rest = some d := by
  match rest with
  | [] => simp at hlen; omega
  | [a] => simp at hlen; omega
  | [a, b] => simp at hlen; omega
  | [a, b, c] => simp at hlen; omega
  | b0 :: b1 :: b2 :: b3 :: r =>
    rw [scanRem]
    simp only [List.length_cons] at hlen
    by_cases hc : fromLeBytes b0 b1 b2 b3 ≠ sentinel ∨ o + 4 ≥ size
    · exact ⟨size - o, by rw [if_pos hc]⟩
    · rw [if_neg hc]
      exact scanRem_completes size (o + 4) r (by omega) (by omega) (by omega)

/-- Scanning a buffer of `n` whole sentinel words whose length matches the
remaining size yields depth 4: the final word breaks the loop via
`o + 4 >= size` and is counted into the depth. -/
lemma scanRem_sentinelWords (n : Nat) (hn : 1 ≤ n) :
    ∀ o size, size = o + 4 * n → scanRem size o (sentinelWords n) = some 4 := by
  induction n with
  | zero => omega
  | succ m ih =>
    intro o size hsize
    have hexp : sentinelWords (m + 1) =
        0xfe :: 0xca :: 0xdd :: 0xba :: sentinelWords m := by
      simp [sentinelWords, sentinelBytes, List.replicate_succ]
    rw [hexp, scanRem]
    by_cases hm : m = 0
    · subst hm
      have hc : fromLeBytes 0xfe 0xca 0xdd 0xba ≠ sentinel ∨ o + 4 ≥ size := by
        right; omega
      rw [if_pos hc]
      have : size - o = 4 := by omega
      rw [this]
    · have hc : ¬(fromLeBytes 0xfe 0xca 0xdd 0xba ≠ sentinel ∨ o + 4 ≥ size) := by
        push_neg
        exact ⟨by rw [fromLeBytes_sentinel], by omega⟩
      rw [if_neg hc]
      exact ih (by omega) (o + 4) size (by omega)

/-! ### Region lookup lemmas -/

/-- `find` only returns regions from the list, and only ones whose
containment test passes. -/
lemma find_ok (regions : List Region) (addr : Nat) (s : Region)
    (h : find regions addr = Except.ok s) :
    s ∈ regions ∧ regionContains s addr = true := by
  induction regions with
  | nil => simp [find] at h
  | cons a rest ih =>
    rw [find] at h
    by_cases hc : regionContains a addr = true
    · rw [if_pos (by simpa using hc)] at h
      injection h with h2
      subst h2
      exact ⟨List.mem_cons_self a rest, hc⟩
    · rw [if_neg (by simpa using hc)] at h
      obtain ⟨h1, h2⟩ := ih h
      exact ⟨List.mem_cons_of_mem a h1, h2⟩

/-- When no region's containment test passes, `find` fails. -/
lemma find_err (regions : List Region) (addr : Nat)
    (h : ∀ s ∈ regions, regionContains s addr = false) :
    ∃ e, find regions addr = Except.error e := by
  induction regions with
  | nil => exact ⟨_, rfl⟩
  | cons a rest ih =>
    rw [find]
    rw [if_neg (by simp [h a (List.mem_cons_self a rest)])]
    exact ih (fun s hs => h s (List.mem_cons_of_mem a hs))

/-- When `r` is the unique region containing `addr`, `find` returns it. -/
lemma find_unique (regions : List Region) (addr : Nat) (r : Region)
    (hmem : r ∈ regions) (hr : regionContains r addr = true)
    (huniq : ∀ s ∈ regions, regionContains s addr = true → s = r) :
    find regions addr = Except.ok r := by
  induction regions with
  | nil => simp at hmem
  | cons a rest ih =>
    rw [find]
    by_cases hc : regionContains a addr = true
    · rw [if_pos (by simpa using hc)]
      rw [huniq a (List.mem_cons_self a rest) hc]
    · rw [if_neg (by simpa using hc)]
      rcases List.mem_cons.mp hmem with h1 | h1
      · exact absurd (h1 ▸ hr) (by simpa using hc)
      · exact ih h1 (fun s hs h => huniq s (List.mem_cons_of_mem a hs) h)

/-- The byte length of `n` sentinel words is `4 * n`. -/
lemma sentinelWords_length (n : Nat) : (sentinelWords n).length = 4 * n := by
  induction n with
  | zero => simp [sentinelWords]
  | succ m ih =>
    simp only [sentinelWords, List.replicate_succ, List.flatten_cons,
      List.length_append] at *
    simp [sentinelBytes] at *
    omega

/-! ### Pipeline lemmas -/

/-- Every output the task loop emits comes from a successful `taskStep`. -/
lemma loopCount_mem (env : Env) (tb : List Nat) (n : Nat) :
    ∀ i out, out ∈ (loopCount env tb n i).2.1 →
      ∃ j outs, (taskStep env tb j).2 = Except.ok outs ∧ out ∈ outs := by
  induction n with
  | zero => intro i out h; simp [loopCount] at h
  | succ m ih =>
    intro i out h
    rw [loopCount] at h
    by_cases hs : skipTask env i = true
    · rw [if_pos hs] at h
      exact ih (i + 1) out h
    · rw [if_neg hs] at h
      rcases hts : taskStep env tb i with ⟨tr, res⟩
      rw [hts] at h
      cases res with
      | error e => simp at h
      | ok outs =>
        simp only [List.mem_append] at h
        rcases h with h | h
        · exact ⟨i, outs, by rw [hts], h⟩
        · exact ih (i + 1) out h

/-- Every result row a successful `taskStep` emits has its depth bounded by
its size and its margin equal to `size - depth`. -/
lemma taskStep_row_shape (env : Env) (tb : List Nat) (i : Nat)
    (outs : List Output) (h : (taskStep env tb i).2 = Except.ok outs)
    (r : Row) (hr : Output.row r ∈ outs) :
    r.depth ≤ r.size ∧ r.margin = r.size - r.depth := by
  unfold taskStep at h
  by_cases hn : env.isNet = true ∧ i = 0
  · rw [if_pos hn] at h
    simp only at h
    injection h with h2
    subst h2
    simp at hr
  · rw [if_neg hn] at h
    rcases hw : word32At tb (i * env.taskSize + env.descriptorOff) with _ | daddr
    · rw [hw] at h; simp at h
    rw [hw] at h
    simp only at h
    rcases hrw : env.readWord ((daddr + env.initialStackOff) % 4294967296)
      with e | initial
    · rw [hrw] at h; simp at h
    rw [hrw] at h
    simp only at h
    rcases hf : find env.regions initial with e | region
    · rw [hf] at h; simp at h
    rw [hf] at h
    simp only at h
    by_cases hb : region.tasks.length ≠ 1 ∨
        region.tasks.get? 0 ≠ some (env.moduleTask i)
    · rw [if_pos hb] at h; simp at h
    rw [if_neg hb] at h
    rcases hrb : env.readBytes region.base (initial - region.base)
      with e | stack
    · rw [hrb] at h; simp at h
    rw [hrb] at h
    simp only at h
    rcases hsc : stackScan (initial - region.base) stack with _ | depth
    · rw [hsc] at h; simp at h
    rw [hsc] at h
    simp only at h
    injection h with h2
    subst h2
    simp only [List.mem_singleton] at hr
    injection hr with hr2
    subst hr2
    have hle := scanRem_le (initial - region.base) 0 stack depth hsc
    dsimp only
    exact ⟨by omega, rfl⟩

/-- When (with no dump restriction) every step in a window succeeds, the
loop emits exactly the concatenation of the steps' outputs and no error. -/
lemma loopCount_all_ok (env : Env) (tb : List Nat) (outs : Nat → List Output)
    (hdump : env.taskDump = none) :
    ∀ n i,
      (∀ k, i ≤ k → k < i + n → (taskStep env tb k).2 = Except.ok (outs k)) →
      (loopCount env tb n i).2.1 = ((List.range' i n).map outs).flatten ∧
      (loopCount env tb n i).2.2 = none := by
  intro n
  induction n with
  | zero => intro i _; simp [loopCount]
  | succ m ih =>
    intro i h
    have h0 := h i le_rfl (by omega)
    rw [loopCount]
    rw [if_neg (by simp [skipTask, hdump])]
    rcases hts : taskStep env tb i with ⟨tr, res⟩
    rw [hts] at h0
    simp only at h0
    subst h0
    obtain ⟨h1, h2⟩ := ih (i + 1) (fun k hk1 hk2 => h k (by omega) (by omega))
    simp only [List.range'_succ, List.map_cons, List.flatten_cons]
    exact ⟨by rw [← h1], h2⟩

/-- When (with no dump restriction) the steps before `j` succeed and step
`j` fails, the loop emits exactly the outputs of the steps before `j` and
stops with step `j`'s error: nothing is emitted for task `j` or later. -/
lemma loopCount_fail_at (env : Env) (tb : List Nat) (outs : Nat → List Output)
    (j : Nat) (e : String) (hdump : env.taskDump = none)
    (herr : (taskStep env tb j).2 = Except.error e) :
    ∀ n i, i ≤ j → j < i + n →
      (∀ k, i ≤ k → k < j → (taskStep env tb k).2 = Except.ok (outs k)) →
      (loopCount env tb n i).2.1 = ((List.range' i (j - i)).map outs).flatten ∧
      (loopCount env tb n i).2.2 = some e := by
  intro n
  induction n with
  | zero => intro i h1 h2 _; omega
  | succ m ih =>
    intro i hij hjn hok
    rw [loopCount]
    rw [if_neg (by simp [skipTask, hdump])]
    by_cases hi : i = j
    · subst hi
      rcases hts : taskStep env tb i with ⟨tr, res⟩
      rw [hts] at herr
      simp only at herr
      subst herr
      simp
    · have h0 := hok i le_rfl (by omega)
      rcases hts : taskStep env tb i with ⟨tr, res⟩
      rw [hts] at h0
      simp only at h0
      subst h0
      obtain ⟨h1, h2⟩ :=
        ih (i + 1) (by omega) (by omega)
          (fun k hk1 hk2 => hok k (by omega) hk2)
      have hrange : List.range' i (j - i) =
          i :: List.range' (i + 1) (j - (i + 1)) := by
        have : j - i = (j - (i + 1)) + 1 := by omega
        rw [this, List.range'_succ]
      rw [hrange]
      simp only [List.map_cons, List.flatten_cons]
      exact ⟨by rw [← h1], h2⟩

/-! ### Claim theorems -/

/-- C1: region containment is exclusive at the low boundary (`base` itself
never matches) and inclusive at the high boundary (`base + size` matches, for
a region of positive size whose end fits in a u32), and the `find` lookup
returns the unique region whose interval `base < addr <= base + size`
contains the address — it returns only member regions that pass the test,
returns `r` when `r` is the unique match, and fails with a not-found error
when no region matches. -/
theorem C1_find_boundary (regions : List Region) (r : Region)
    (hsz : 0 < r.size) (hov : r.base + r.size < 4294967296)
    (hmem : r ∈ regions)
    (huniq : ∀ s ∈ regions,
      regionContains s (r.base + r.size) = true → s = r) :
    regionContains r r.base = false ∧
    regionContains r (r.base + r.size) = true ∧
    find regions (r.base + r.size) = Except.ok r ∧
    (∀ a s, find regions a = Except.ok s →
      s ∈ regions ∧ regionContains s a = true) ∧
    (∀ a, (∀ s ∈ regions, regionContains s a = false) →
      ∃ e, find regions a = Except.error e) := by
  have hhigh : regionContains r (r.base + r.size) = true := by
    simp only [regionContains, Nat.mod_eq_of_lt hov, Bool.and_eq_true,
      decide_eq_true_eq]
    omega
  refine ⟨?_, hhigh, ?_, ?_, ?_⟩
  · simp [regionContains]
  · exact find_unique regions (r.base + r.size) r hmem hhigh huniq
  · exact fun a s h => find_ok regions a s h
  · exact fun a h => find_err regions a h

/-- C1 witness: a single region `[0x20001000, +1024]`; the boundary facts
and the lookup at the high boundary hold concretely. -/
theorem C1_find_boundary_witness :
    regionContains ⟨0x20001000, 1024, [0]⟩ 0x20001000 = false ∧
    regionContains ⟨0x20001000, 1024, [0]⟩ (0x20001000 + 1024) = true ∧
    find [⟨0x20001000, 1024, [0]⟩] (0x20001000 + 1024) =
      Except.ok ⟨0x20001000, 1024, [0]⟩ ∧
    (∀ a s, find [⟨0x20001000, 1024, [0]⟩] a = Except.ok s →
      s ∈ [(⟨0x20001000, 1024, [0]⟩ : Region)] ∧ regionContains s a = true) ∧
    (∀ a, (∀ s ∈ [(⟨0x20001000, 1024, [0]⟩ : Region)],
        regionContains s a = false) →
      ∃ e, find [⟨0x20001000, 1024, [0]⟩] a = Except.error e) :=
  C1_find_boundary [⟨0x20001000, 1024, [0]⟩] ⟨0x20001000, 1024, [0]⟩
    (by decide) (by decide) (by simp)
    (by intro s hs _; simpa using hs)

/-- C3 counterexample: a buffer of two whole sentinel words (size 8, every
byte equal to the fill pattern) scans to depth 4, not depth = size = 8: the
loop breaks on `o + 4 >= size` at the last word and counts it as used. -/
theorem C3_all_sentinel_counterexample :
    stackScan 8 (sentinelWords 2) = some 4 ∧
    stackScan 8 (sentinelWords 2) ≠ some 8 := by
  constructor
  · decide
  · decide

/-- C3 (amended): a stack buffer of `n ≥ 1` whole sentinel words (size
`4 * n`, all bytes the fill pattern) scans to depth 4 — the final word is
always counted into the depth — hence margin `size - 4`, not depth = size. -/
theorem C3_all_sentinel_depth (n : Nat) (hn : 1 ≤ n) :
    stackScan (4 * n) (sentinelWords n) = some 4 :=
  scanRem_sentinelWords n hn 0 (4 * n) (by omega)

/-- C3 witness: two sentinel words scan to depth 4. -/
theorem C3_all_sentinel_depth_witness :
    stackScan (4 * 2) (sentinelWords 2) = some 4 :=
  C3_all_sentinel_depth 2 (by decide)

/-- C4 counterexample: a 5-byte buffer (size not a multiple of 4) whose
first word is the sentinel.  The scan advances to offset 4 and then
attempts `stack[4..8]` on the 5-byte buffer — an out-of-range slice read
past the end (a Rust panic, modelled as `none`) — so the scan does NOT
complete, contradicting the claim as stated. -/
theorem C4_overrun_counterexample :
    (5 : Nat) % 4 ≠ 0 ∧
    stackScan 5 [0xfe, 0xca, 0xdd, 0xba, 0xfe] = none := by
  constructor
  · decide
  · decide

/-- C4 (amended): for a buffer whose size is not a multiple of 4 (buffer
length equal to size), the tail remainder is never treated as a full
sentinel match — any completed scan counts the tail into the depth (the
depth strictly exceeds `size % 4`, indeed is at least 4) — but completion
is not guaranteed: when the sentinel prefix reaches the tail, the scan
aborts with an out-of-range read (`none`) instead of stopping cleanly. -/
theorem C4_tail_remainder (size : Nat) (stack : List Nat)
    (_hmod : size % 4 ≠ 0) (hlen : stack.length = size) :
    stackScan size stack = none ∨
      ∃ d, stackScan size stack = some d ∧ size % 4 < d ∧ d ≤ size := by
  cases h : stackScan size stack with
  | none => exact Or.inl rfl
  | some d =>
    right
    refine ⟨d, rfl, ?_, ?_⟩
    · have h4 := scanRem_ge_four size 0 stack d (by omega) h
      omega
    · have := scanRem_le size 0 stack d h
      omega

/-- C4 witness: a 5-byte buffer whose first word is not the sentinel; the
scan completes with depth 5, which exceeds the 1-byte tail remainder. -/
theorem C4_tail_remainder_witness :
    stackScan 5 [0, 0, 0, 0, 0] = none ∨
      ∃ d, stackScan 5 [0, 0, 0, 0, 0] = some d ∧ 5 % 4 < d ∧ d ≤ 5 :=
  C4_tail_remainder 5 [0, 0, 0, 0, 0] (by decide) (by decide)

/-- C9: for a buffer whose size is a positive multiple of 4 (buffer length
equal to size), the scan completes with a depth of at least 4 — the final
word is always counted toward the depth even when it equals the sentinel —
so the margin `size - depth` never exceeds `size - 4` and never equals
`size`. -/
theorem C9_min_depth (size : Nat) (stack : List Nat)
    (hmod : size % 4 = 0) (hpos : 0 < size) (hlen : stack.length = size) :
    ∃ d, stackScan size stack = some d ∧ 4 ≤ d ∧ d ≤ size ∧
      size - d ≤ size - 4 ∧ size - d ≠ size := by
  obtain ⟨d, hd⟩ :=
    scanRem_completes size 0 stack (by omega) (by omega) (by omega)
  have h4 := scanRem_ge_four size 0 stack d (by omega) hd
  have hle := scanRem_le size 0 stack d hd
  exact ⟨d, hd, h4, by omega, by omega, by omega⟩

/-- C9 witness: a 4-byte non-sentinel buffer completes at depth 4. -/
theorem C9_min_depth_witness :
    ∃ d, stackScan 4 [1, 2, 3, 4] = some d ∧ 4 ≤ d ∧ d ≤ 4 ∧
      4 - d ≤ 4 - 4 ∧ 4 - d ≠ 4 :=
  C9_min_depth 4 [1, 2, 3, 4] (by decide) (by decide) (by decide)

/-- C5: when (with no dump restriction) task `j` is processed — not the
supervisor skip — the tasks before it succeed, and `j`'s `initial_stack`
resolves to a region whose owner set is not exactly the singleton of `j`'s
task id (wrong length or wrong sole owner), the command stops with the
mismatched-task error and emits exactly the earlier tasks' rows: nothing
for task `j` or any later task. -/
theorem C5_ownership_fatal (env : Env) (tb : List Nat)
    (outs : Nat → List Output) (j daddr initial : Nat) (region : Region)
    (hdump : env.taskDump = none)
    (htb : (buildTaskblock env).2 = Except.ok tb)
    (hj : j < env.taskCount)
    (hnotsup : ¬(env.isNet = true ∧ j = 0))
    (hprev : ∀ k, k < j → (taskStep env tb k).2 = Except.ok (outs k))
    (hdaddr : word32At tb (j * env.taskSize + env.descriptorOff) = some daddr)
    (hinit : env.readWord ((daddr + env.initialStackOff) % 4294967296) =
      Except.ok initial)
    (hreg : find env.regions initial = Except.ok region)
    (hbad : region.tasks.length ≠ 1 ∨
      region.tasks.get? 0 ≠ some (env.moduleTask j)) :
    (stackmargin env).2.2 = some "mismatched task" ∧
    (stackmargin env).2.1 = ((List.range' 0 j).map outs).flatten := by
  have herr : (taskStep env tb j).2 = Except.error "mismatched task" := by
    unfold taskStep
    rw [if_neg hnotsup, hdaddr]
    simp only
    rw [hinit]
    simp only
    rw [hreg]
    simp only
    rw [if_pos hbad]
  obtain ⟨h1, h2⟩ :=
    loopCount_fail_at env tb outs j "mismatched task" hdump herr
      env.taskCount 0 (Nat.zero_le j) (by omega)
      (fun k _ hk2 => hprev k hk2)
  unfold stackmargin
  rcases hbt : buildTaskblock env with ⟨tr0, res⟩
  rw [hbt] at htb
  simp only at htb
  subst htb
  simp only
  constructor
  · exact h2
  · simpa using h1

/-- C5 witness: in the two-task archive `envBad`, task 0 succeeds with the
jefe row, and task 1's stack region is owned by `[5, 6]`, so the command
fails after emitting only task 0's row. -/
theorem C5_ownership_fatal_witness :
    (stackmargin envBad).2.2 = some "mismatched task" ∧
    (stackmargin envBad).2.1 =
      ((List.range' 0 1).map
        (fun _ => [Output.row ⟨0, "jefe", 0x20001000, 1024, 256, 768⟩])).flatten :=
  C5_ownership_fatal envBad tbBad
    (fun _ => [Output.row ⟨0, "jefe", 0x20001000, 1024, 256, 768⟩])
    1 0x2100 (0x20001400 + 1024) ⟨0x20001400, 1024, [5, 6]⟩
    rfl rfl (by decide) (by decide)
    (by intro k hk; have hk0 : k = 0 := by omega
        subst hk0; rfl)
    (by decide) rfl rfl (by decide)

/-- C6: on a network session with no dump restriction, the supervisor's
step issues no device operation and yields only the "unknown" placeholder
row, and — provided the task-table read and every other task's step
succeed — the command completes with no error, emitting the placeholder
followed by every remaining task's outputs in order. -/
theorem C6_net_supervisor (env : Env) (tb : List Nat)
    (outs : Nat → List Output)
    (hnet : env.isNet = true)
    (hdump : env.taskDump = none)
    (hcount : 0 < env.taskCount)
    (htb : (buildTaskblock env).2 = Except.ok tb)
    (hrest : ∀ k, 0 < k → k < env.taskCount →
      (taskStep env tb k).2 = Except.ok (outs k)) :
    taskStep env tb 0 = ([], Except.ok [Output.unknown 0 (env.moduleName 0)]) ∧
    (stackmargin env).2.2 = none ∧
    (stackmargin env).2.1 =
      Output.unknown 0 (env.moduleName 0) ::
        ((List.range' 1 (env.taskCount - 1)).map outs).flatten := by
  have hsup : taskStep env tb 0 =
      ([], Except.ok [Output.unknown 0 (env.moduleName 0)]) := by
    unfold taskStep
    rw [if_pos ⟨hnet, rfl⟩]
  obtain ⟨m, hm⟩ : ∃ m, env.taskCount = m + 1 :=
    ⟨env.taskCount - 1, by omega⟩
  obtain ⟨h1, h2⟩ :=
    loopCount_all_ok env tb outs hdump m 1
      (fun k hk1 hk2 => hrest k (by omega) (by omega))
  have hloop : loopCount env tb (m + 1) 0 =
      let r := loopCount env tb m 1
      ([] ++ r.1, [Output.unknown 0 (env.moduleName 0)] ++ r.2.1, r.2.2) := by
    rw [loopCount]
    rw [if_neg (by simp [skipTask, hdump])]
    rw [hsup]
  refine ⟨hsup, ?_, ?_⟩ <;>
  · unfold stackmargin
    rcases hbt : buildTaskblock env with ⟨tr0, res⟩
    rw [hbt] at htb
    simp only at htb
    subst htb
    simp only [hm, hloop]
    simp [h1, h2]

/-- C6 witness: in the two-task network session `envNet`, the supervisor's
row is the placeholder, task 1 is processed normally, and the command
completes without error. -/
theorem C6_net_supervisor_witness :
    taskStep envNet tbNet 0 =
      ([], Except.ok [Output.unknown 0 (envNet.moduleName 0)]) ∧
    (stackmargin envNet).2.2 = none ∧
    (stackmargin envNet).2.1 =
      Output.unknown 0 (envNet.moduleName 0) ::
        ((List.range' 1 (envNet.taskCount - 1)).map
          (fun _ => [Output.row ⟨1, "rcc", 0x20001400, 1024, 256, 768⟩])).flatten :=
  C6_net_supervisor envNet tbNet
    (fun _ => [Output.row ⟨1, "rcc", 0x20001400, 1024, 256, 768⟩])
    rfl rfl (by decide) rfl
    (by intro k hk1 hk2
        have hk2' : k < 2 := hk2
        have hk : k = 1 := by omega
        subst hk; rfl)

/-- C7: on the synthetic jefe configuration — region base `0x20001000`,
`initial_stack = 0x20001000 + 1024` (size 1024), first 768 stack bytes
equal to the sentinel pattern and the remaining 256 differing — the command
emits exactly the row (stackbase `0x20001000`, size 1024, depth 256,
margin 768) and completes without error. -/
theorem C7_jefe_example :
    (stackmargin envJefe).2.1 =
      [Output.row ⟨0, "jefe", 0x20001000, 1024, 256, 768⟩] ∧
    (stackmargin envJefe).2.2 = none := by
  constructor
  · rfl
  · rfl

/-- C8: every row the command emits has `depth ≤ size` (depth is a natural
number, so `depth ∈ [0, size]`) and `margin = size - depth`. -/
theorem C8_emitted_bounds (env : Env) (r : Row)
    (h : Output.row r ∈ (stackmargin env).2.1) :
    r.depth ≤ r.size ∧ r.margin = r.size - r.depth := by
  unfold stackmargin at h
  rcases hbt : buildTaskblock env with ⟨tr0, res⟩
  rw [hbt] at h
  cases res with
  | error e => simp at h
  | ok tb =>
    simp only at h
    obtain ⟨j, outs, hok, hmem⟩ :=
      loopCount_mem env tb env.taskCount 0 (Output.row r) h
    exact taskStep_row_shape env tb j outs hok r hmem

/-- C8 witness: the jefe row emitted by `envJefe` satisfies the bounds. -/
theorem C8_emitted_bounds_witness :
    (⟨0, "jefe", 0x20001000, 1024, 256, 768⟩ : Row).depth ≤
      (⟨0, "jefe", 0x20001000, 1024, 256, 768⟩ : Row).size ∧
    (⟨0, "jefe", 0x20001000, 1024, 256, 768⟩ : Row).margin =
      (⟨0, "jefe", 0x20001000, 1024, 256, 768⟩ : Row).size -
        (⟨0, "jefe", 0x20001000, 1024, 256, 768⟩ : Row).depth :=
  C8_emitted_bounds envJefe ⟨0, "jefe", 0x20001000, 1024, 256, 768⟩
    (by decide)

/-- C2 (code behavior at the failing input): with a probe whose `halt` and
`run` succeed but whose `read_8` fails, `readvar_dump` propagates the read
error after issuing only `halt` and the failed read — `run` is never
called, and the device is left halted when the operation returns.  This
contradicts the claimed scoped-release contract: the code's sequential
`halt()? / read_8()? / run()?` returns early on read failure. -/
theorem C2_halt_leak :
    (readvar_dump coreBadRead dbTrivial ⟨0x20000018, 4, 1⟩ true).2 =
      Except.error "read failed" ∧
    DeviceOp.run ∉
      (readvar_dump coreBadRead dbTrivial ⟨0x20000018, 4, 1⟩ true).1 ∧
    haltedAfter
      (readvar_dump coreBadRead dbTrivial ⟨0x20000018, 4, 1⟩ true).1 = true := by
  refine ⟨rfl, ?_, rfl⟩
  decide

/-- C10: listing variables (`--list`) performs no device operation at all —
no halt, no run, no read — whatever the database holds and whether or not
the listing itself succeeds. -/
theorem C10_list_no_device (core : RvCore) (db : RvDb) (args : RvArgs)
    (hlist : args.list = true) :
    (readvar core db args).1 = [] := by
  unfold readvar
  rw [if_pos (by simp [hlist])]
  cases db.listVariables <;> rfl

/-- C10 witness: a `--list` invocation against the failing-read probe still
touches the device zero times. -/
theorem C10_list_no_device_witness :
    (readvar coreBadRead dbTrivial ⟨false, true, none⟩).1 = [] :=
  C10_list_no_device coreBadRead dbTrivial ⟨false, true, none⟩ rfl

end Humility

